import Mathlib

/-!
Verification of the Evidence Rendering & Caching Engine (`EvidenceManager`
in `evidence.py`): a two-tier LRU cache of rendered PDF pages and cropped
regions with a byte budget, version-aware cache keys and a fallback policy.

Modelling conventions for the shallow embedding:
* Python floats (mtimes, timestamps, normalized bbox coordinates) are
  modelled as exact rationals; the comparisons and `max`/`min` operations
  performed on them by the source are exact, so this is faithful for the
  control flow under study.
* Filesystem paths are strings; the cache directory is an association
  list from path to file metadata (the disk is part of the mutable state).
* The source PDFs, the image metadata PIL would report, and the sizes of
  written PNG files are an unmutated environment (`Env`).
* `hashlib.md5(str(mtime)).encode()).hexdigest()[:8]` is modelled as an
  abstract function `Env.mtimeHash`; nothing in the source depends on its
  value beyond it being a deterministic function of the mtime.
* Exceptions are `Except.error`; each operation returns its result
  together with the post-state (Python mutations before a raise persist).
-/

set_option autoImplicit false

deriving instance DecidableEq for Except

namespace QAEvidence

/-- Split a character list at every occurrence of `c` (Python
`str.split(sep)` semantics for a one-character separator: splitting the
empty string yields one empty field, adjacent separators yield empty
fields). -/
def splitCharList (c : Char) : List Char → List (List Char)
  | [] => [[]]
  | a :: rest =>
      if a = c then [] :: splitCharList c rest
      else
        match splitCharList c rest with
        | [] => [[a]]
        | g :: gs => (a :: g) :: gs

/-- Python `s.split("_")`, as used by `_load_existing_cache` on filename
stems. -/
def pySplitUnderscore (s : String) : List String :=
  (splitCharList '_' s.data).map String.mk

/-- File metadata as returned by `stat()`. -/
structure FileInfo where
  size : Int
  ctime : ℚ
  atime : ℚ
deriving DecidableEq

/-- A cache directory: association list from path to file metadata. -/
abbrev FS := List (String × FileInfo)

/-- Model of `Path.exists()` on the cache directory. -/
def fsExists : FS → String → Bool
  | [], _ => false
  | kv :: rest, p => if kv.1 = p then true else fsExists rest p

/-- Model of `Path.stat()` on the cache directory. -/
def fsStat : FS → String → Option FileInfo
  | [], _ => none
  | kv :: rest, p => if kv.1 = p then some kv.2 else fsStat rest p

/-- Model of `Path.unlink()`. -/
def fsRemove : FS → String → FS
  | [], _ => []
  | kv :: rest, p => if kv.1 = p then fsRemove rest p else kv :: fsRemove rest p

/-- Saving a file of `size` bytes at time `now` (overwrites). -/
def fsWrite (fs : FS) (p : String) (size : Int) (now : ℚ) : FS :=
  (p, ⟨size, now, now⟩) :: fsRemove fs p

/-- Translation of `CacheEntry` from `evidence.py`: metadata for one cached raster file. -/
structure CacheEntry where
  path : String
  size_bytes : Int
  created_at : ℚ
  source_mtime : ℚ
  last_accessed : ℚ
deriving DecidableEq

/-- Model of `collections.OrderedDict` keyed by `κ`, front is least recently used. -/
abbrev ODict (κ : Type) := List (κ × CacheEntry)

/-- Model of `key in d` / `d[key]` on an ordered dict. -/
def odLookup {κ : Type} [DecidableEq κ] : ODict κ → κ → Option CacheEntry
  | [], _ => none
  | (k', v) :: rest, k => if k' = k then some v else odLookup rest k

/-- Model of `d[key] = value`: replace in place if the key is present (position is
kept, as for a Python dict), else append at the most-recent end. -/
def odSet {κ : Type} [DecidableEq κ] : ODict κ → κ → CacheEntry → ODict κ
  | [], k, v => [(k, v)]
  | (k', v') :: rest, k, v =>
      if k' = k then (k, v) :: rest else (k', v') :: odSet rest k v

/-- Remove a key (no-op if absent). -/
def odErase {κ : Type} [DecidableEq κ] : ODict κ → κ → ODict κ
  | [], _ => []
  | (k', v') :: rest, k =>
      if k' = k then odErase rest k else (k', v') :: odErase rest k

/-- Model of `OrderedDict.move_to_end(key)`, as used by `_touch_cache_entry`. -/
def odMoveToEnd {κ : Type} [DecidableEq κ] (d : ODict κ) (k : κ) : ODict κ :=
  match odLookup d k with
  | none => d
  | some v => odErase d k ++ [(k, v)]

/-- Sum of `size_bytes` over the live entries of an ordered dict. -/
def entriesSize {κ : Type} (d : ODict κ) : Int :=
  (d.map (fun kv => kv.2.size_bytes)).sum

/-- Translation of `BBoxNorm` from `schemas.py`: normalized bounding box coordinates. -/
structure BBoxNorm where
  x0 : ℚ
  y0 : ℚ
  x1 : ℚ
  y1 : ℚ
deriving DecidableEq

/-- Translation of `RequestedROI` from `schemas.py` (the `reason` field is ignored by the
evidence engine and omitted). `page` is 1-indexed at this boundary. -/
structure RequestedROI where
  block_id : String
  page : Int
  bbox_norm : BBoxNorm
  dpi : Int
deriving DecidableEq

/-- Translation of `RenderedEvidence` from `evidence.py`. -/
structure RenderedEvidence where
  block_id : String
  page : Int
  dpi : Int
  png_path : String
  is_crop : Bool := false
  bbox_norm : Option BBoxNorm := none
  crop_path : Option String := none
  is_fallback : Bool := false
deriving DecidableEq

/-- What the environment knows about one source PDF: its mtime, its page
count, and — for each (page, dpi) — the pixmap dimensions PyMuPDF would
produce and the byte size of the PNG file that saving that pixmap writes. -/
structure PdfInfo where
  mtime : ℚ
  pages : Int
  pixW : Int → Int → Int
  pixH : Int → Int → Int
  pngSize : Int → Int → Int

/-- The immutable environment of one engine call: the source PDFs by path,
the abstract truncated-md5 mtime hash, whether `PIL.Image.open` succeeds on
a given PNG path, the dimensions PIL reports for it, the byte size of a
saved crop file by path, and the current wall-clock time. -/
structure Env where
  pdfs : String → Option PdfInfo
  mtimeHash : ℚ → String
  imgOk : String → Bool
  imgW : String → Int
  imgH : String → Int
  cropSize : String → Int
  now : ℚ

/-- In-memory key of the render cache: `(block_id, page, dpi, source_mtime)`. -/
abbrev RenderKey := String × Int × Int × ℚ

/-- The mutable state of an `EvidenceManager`: the two ordered in-memory
mappings, the running byte total, the configured budget, and the cache
directory contents (paths are relative to the cache root: `renders/...`
and `crops/...`). -/
structure EMState where
  render_cache : ODict RenderKey
  crop_cache : ODict String
  current_cache_size : Int
  max_cache_size_bytes : Int
  fs : FS
deriving DecidableEq

/-- Translation of `EvidenceManager._get_versioned_cache_key`. -/
def get_versioned_cache_key (env : Env) (block_id : String) (page dpi : Int)
    (source_mtime : ℚ) : String :=
  block_id ++ "_p" ++ toString page ++ "_d" ++ toString dpi ++ "_v" ++
    env.mtimeHash source_mtime

/-- Zero-pad a natural number to four digits (for `%.4f` fractional parts). -/
def pad4 (n : Nat) : String :=
  let s := toString n
  String.mk (List.replicate (4 - s.length) '0') ++ s

/-- Python `"%.4f" % q` (round to four decimal places). The engine only
formats corrected bbox coordinates, which lie in `[0, 1]`. -/
def fmt4 (q : ℚ) : String :=
  let sign := if q < 0 then "-" else ""
  let m : Int := if q < 0 then ⌊-q * 10000 + 1/2⌋ else ⌊q * 10000 + 1/2⌋
  sign ++ toString (m / 10000) ++ "." ++ pad4 (m % 10000).toNat

/-- Translation of `EvidenceManager._get_crop_key`. -/
def get_crop_key (block_id : String) (page : Int) (bbox : BBoxNorm)
    (dpi : Int) : String :=
  block_id ++ "_p" ++ toString page ++ "_d" ++ toString dpi ++ "_crop_" ++
    fmt4 bbox.x0 ++ "_" ++ fmt4 bbox.y0 ++ "_" ++ fmt4 bbox.x1 ++ "_" ++ fmt4 bbox.y1

/-- One pass of `while self._current_cache_size > target_size and cache:`
from `_evict_lru_files`: pop the least-recently-used entry, unlink its file
if it exists and then decrement the running total by its recorded size
(an already-missing file is popped without decrementing). -/
def evictLoop {κ : Type} (target : Int) :
    ODict κ → FS → Int → ODict κ × FS × Int
  | [], fs, size => ([], fs, size)
  | (k, e) :: rest, fs, size =>
      if target < size then
        if fsExists fs e.path then
          evictLoop target rest (fsRemove fs e.path) (size - e.size_bytes)
        else
          evictLoop target rest fs size
      else ((k, e) :: rest, fs, size)

/-- Translation of `EvidenceManager._evict_lru_files`: evict from the crop cache first,
then from the render cache, until the total is back under
`max_cache_size_bytes - needed_bytes`. -/
def evict_lru_files (s : EMState) (needed_bytes : Int) : EMState :=
  let target := s.max_cache_size_bytes - needed_bytes
  let c := evictLoop target s.crop_cache s.fs s.current_cache_size
  let r := evictLoop target s.render_cache c.2.1 c.2.2
  { s with crop_cache := c.1, render_cache := r.1, fs := r.2.1,
           current_cache_size := r.2.2 }

/-- Translation of `EvidenceManager._get_source_mtime`: 0.0 when `stat` fails. -/
def get_source_mtime (env : Env) (pdf_path : String) : ℚ :=
  match env.pdfs pdf_path with
  | some info => info.mtime
  | none => 0

/-- The part of `render_pdf_page_to_png` after the in-memory cache check
fell through: adopt a file already on disk, or render, evict if the
estimate would exceed the budget, save, and register the new entry. -/
def renderMiss (env : Env) (s : EMState) (info : PdfInfo)
    (block_id : String) (page dpi : Int) (source_mtime : ℚ) :
    Except String String × EMState :=
  let cache_key : RenderKey := (block_id, page, dpi, source_mtime)
  let cache_name := get_versioned_cache_key env block_id page dpi source_mtime
  let png_path := "renders/" ++ cache_name ++ ".png"
  match fsStat s.fs png_path with
  | some fi =>
      (Except.ok png_path,
       { s with
         render_cache := odSet s.render_cache cache_key
           ⟨png_path, fi.size, fi.ctime, source_mtime, env.now⟩,
         current_cache_size := s.current_cache_size + fi.size })
  | none =>
      if info.pages ≤ page then
        (Except.error ("Page " ++ toString page ++ " out of range. PDF has " ++
          toString info.pages ++ " pages."), s)
      else
        let estimated_size := info.pixW page dpi * info.pixH page dpi * 3
        let s1 := if s.max_cache_size_bytes < s.current_cache_size + estimated_size
                  then evict_lru_files s estimated_size else s
        let size := info.pngSize page dpi
        (Except.ok png_path,
         { s1 with
           fs := fsWrite s1.fs png_path size env.now,
           render_cache := odSet s1.render_cache cache_key
             ⟨png_path, size, env.now, source_mtime, env.now⟩,
           current_cache_size := s1.current_cache_size + size })

/-- Translation of `EvidenceManager.render_pdf_page_to_png`. -/
def render_pdf_page_to_png (env : Env) (s : EMState) (pdf_path block_id : String)
    (page dpi0 : Int) : Except String String × EMState :=
  match env.pdfs pdf_path with
  | none => (Except.error ("PDF file not found: " ++ pdf_path), s)
  | some info =>
      let dpi := max 72 (min 600 dpi0)
      let source_mtime := info.mtime
      let cache_key : RenderKey := (block_id, page, dpi, source_mtime)
      match odLookup s.render_cache cache_key with
      | some entry =>
          if fsExists s.fs entry.path then
            let touched := odSet (odMoveToEnd s.render_cache cache_key) cache_key
              ({ entry with last_accessed := env.now })
            (Except.ok entry.path, { s with render_cache := touched })
          else renderMiss env s info block_id page dpi source_mtime
      | none => renderMiss env s info block_id page dpi source_mtime

/-- Translation of `max(0.0, min(1.0, q))` from `crop_png`. -/
def clamp01 (q : ℚ) : ℚ := max 0 (min 1 q)

/-- The bbox correction performed by `crop_png`: clamp all four
coordinates into `[0, 1]`, then fall back to the full width (resp.
height) if the clamped interval is empty or reversed. -/
def correctedBBoxOf (b : BBoxNorm) : BBoxNorm :=
  let x0 := clamp01 b.x0
  let y0 := clamp01 b.y0
  let x1 := clamp01 b.x1
  let y1 := clamp01 b.y1
  let px := if x1 ≤ x0 then ((0 : ℚ), (1 : ℚ)) else (x0, x1)
  let py := if y1 ≤ y0 then ((0 : ℚ), (1 : ℚ)) else (y0, y1)
  ⟨px.1, py.1, px.2, py.2⟩

/-- Python `int()`: truncation toward zero. -/
def pyInt (q : ℚ) : Int := if q < 0 then -⌊-q⌋ else ⌊q⌋

/-- The normalized-to-pixel conversion of `crop_png`, including the
minimum-10-pixel widening of the right/bottom edges. Returns
`(left, top, right, bottom)`. -/
def pixelRect (w h : Int) (b : BBoxNorm) : Int × Int × Int × Int :=
  let left := pyInt (b.x0 * (w : ℚ))
  let top := pyInt (b.y0 * (h : ℚ))
  let right0 := pyInt (b.x1 * (w : ℚ))
  let bottom0 := pyInt (b.y1 * (h : ℚ))
  let right := if right0 - left < 10 then min (left + 10) w else right0
  let bottom := if bottom0 - top < 10 then min (top + 10) h else bottom0
  (left, top, right, bottom)

/-- The part of `crop_png` after the in-memory cache check fell through:
adopt a crop file already on disk, or open the full-page image, crop with
minimum-size enforcement, evict if the estimate would exceed the budget,
save, and register the new entry. -/
def cropMiss (env : Env) (s : EMState) (png_path : String) (cb : BBoxNorm)
    (crop_name crop_path : String) : Except String String × EMState :=
  match fsStat s.fs crop_path with
  | some fi =>
      (Except.ok crop_path,
       { s with
         crop_cache := odSet s.crop_cache crop_name
           ⟨crop_path, fi.size, fi.ctime, 0, env.now⟩,
         current_cache_size := s.current_cache_size + fi.size })
  | none =>
      if env.imgOk png_path then
        let w := env.imgW png_path
        let h := env.imgH png_path
        let r := pixelRect w h cb
        let estimated_size := (r.2.2.1 - r.1) * (r.2.2.2 - r.2.1) * 3
        let s1 := if s.max_cache_size_bytes < s.current_cache_size + estimated_size
                  then evict_lru_files s estimated_size else s
        let size := env.cropSize crop_path
        (Except.ok crop_path,
         { s1 with
           fs := fsWrite s1.fs crop_path size env.now,
           crop_cache := odSet s1.crop_cache crop_name
             ⟨crop_path, size, env.now, 0, env.now⟩,
           current_cache_size := s1.current_cache_size + size })
      else
        (Except.error ("cannot open image file " ++ png_path), s)

/-- Translation of `EvidenceManager.crop_png`. -/
def crop_png (env : Env) (s : EMState) (png_path : String) (bbox_norm : BBoxNorm)
    (block_id : String) (page dpi : Int) : Except String String × EMState :=
  if fsExists s.fs png_path then
    let cb := correctedBBoxOf bbox_norm
    let crop_name := get_crop_key block_id page cb dpi
    let crop_path := "crops/" ++ crop_name ++ ".png"
    match odLookup s.crop_cache crop_name with
    | some entry =>
        if fsExists s.fs entry.path then
          let touched := odSet (odMoveToEnd s.crop_cache crop_name) crop_name
            ({ entry with last_accessed := env.now })
          (Except.ok entry.path, { s with crop_cache := touched })
        else cropMiss env s png_path cb crop_name crop_path
    | none => cropMiss env s png_path cb crop_name crop_path
  else
    (Except.error ("PNG file not found: " ++ png_path), s)

/-- Translation of `EvidenceManager.render_and_crop_roi`. -/
def render_and_crop_roi (env : Env) (s : EMState) (roi : RequestedROI)
    (pdf_path : String) (fallback_to_full_page : Bool := true) :
    Except String RenderedEvidence × EMState :=
  match render_pdf_page_to_png env s pdf_path roi.block_id (roi.page - 1) roi.dpi with
  | (Except.error e, s1) =>
      (Except.error ("Failed to render page for block " ++ roi.block_id ++ ": " ++ e), s1)
  | (Except.ok png_path, s1) =>
      match crop_png env s1 png_path roi.bbox_norm roi.block_id (roi.page - 1) roi.dpi with
      | (Except.ok cp, s2) =>
          (Except.ok
            { block_id := roi.block_id, page := roi.page - 1, dpi := roi.dpi,
              png_path := png_path, is_crop := true,
              bbox_norm := some roi.bbox_norm, crop_path := some cp,
              is_fallback := false }, s2)
      | (Except.error e, s2) =>
          if fallback_to_full_page then
            (Except.ok
              { block_id := roi.block_id, page := roi.page - 1, dpi := roi.dpi,
                png_path := png_path, is_crop := true,
                bbox_norm := some roi.bbox_norm, crop_path := some png_path,
                is_fallback := true }, s2)
          else (Except.error e, s2)

/-- The loop body of `gather_evidence_for_rois`, with the accumulated
`evidence_paths`, `warnings` and `seen_crops` threaded through. -/
def gatherLoop (env : Env) (include_full_page : Bool)
    (block_paths : List (String × String)) :
    List RequestedROI → EMState → List String → List String → List String →
    (List String × List String) × EMState
  | [], s, ev, ws, _seen => ((ev, ws), s)
  | roi :: rest, s, ev, ws, seen =>
      match (block_paths.find? (fun kv => kv.1 == roi.block_id)).map (fun kv => kv.2) with
      | none =>
          gatherLoop env include_full_page block_paths rest s ev
            (ws ++ ["Block " ++ roi.block_id ++ " not found in available paths"]) seen
      | some pdf_path =>
          match render_and_crop_roi env s roi pdf_path with
          | (Except.error e, s1) =>
              gatherLoop env include_full_page block_paths rest s1 ev
                (ws ++ ["Failed to render ROI for block " ++ roi.block_id ++ ": " ++ e]) seen
          | (Except.ok evd, s1) =>
              let ev1 := if include_full_page ∧ evd.png_path ∉ ev
                         then ev ++ [evd.png_path] else ev
              let ck := evd.crop_path.getD "None"
              let ev2 := if ck ∈ seen then ev1 else ev1 ++ [ck]
              let seen2 := if ck ∈ seen then seen else seen ++ [ck]
              let ws1 := if evd.is_fallback
                         then ws ++ ["Block " ++ roi.block_id ++ ": crop failed, using full page"]
                         else ws
              gatherLoop env include_full_page block_paths rest s1 ev2 ws1 seen2

/-- Translation of `EvidenceManager.gather_evidence_for_rois`. -/
def gather_evidence_for_rois (env : Env) (s : EMState) (rois : List RequestedROI)
    (block_paths : List (String × String)) (include_full_page : Bool := false) :
    (List String × List String) × EMState :=
  gatherLoop env include_full_page block_paths rois s [] [] []

/-- A PNG file found in a cache subdirectory at startup: its filename stem
and its `stat` data. -/
structure DiskFile where
  stem : String
  size : Int
  ctime : ℚ
  atime : ℚ
deriving DecidableEq

/-- The renders pass of `_load_existing_cache`. For each file whose stem
splits on `_` into at least 4 parts the source constructs a `CacheEntry`
(size, ctime, `source_mtime=0`, atime) into a local variable and adds the
file's size to the running total — but never stores that entry into
`_render_cache` (the local is dead), so only the byte counter changes. -/
def loadRenders : List DiskFile → EMState → EMState
  | [], s => s
  | f :: rest, s =>
      if 4 ≤ (pySplitUnderscore f.stem).length then
        loadRenders rest
          { s with current_cache_size := s.current_cache_size + f.size }
      else loadRenders rest s

/-- The crops pass of `_load_existing_cache`: each file is registered in
`_crop_cache` under its stem, with `source_mtime = 0`, and its size is
added to the running total. -/
def loadCrops : List DiskFile → EMState → EMState
  | [], s => s
  | f :: rest, s =>
      loadCrops rest
        { s with
          crop_cache := odSet s.crop_cache f.stem
            ⟨"crops/" ++ f.stem ++ ".png", f.size, f.ctime, 0, f.atime⟩,
          current_cache_size := s.current_cache_size + f.size }

/-- The cache-directory contents corresponding to the startup listings. -/
def initFS (renders crops : List DiskFile) : FS :=
  renders.map (fun f => ("renders/" ++ f.stem ++ ".png", ⟨f.size, f.ctime, f.atime⟩))
    ++ crops.map (fun f => ("crops/" ++ f.stem ++ ".png", ⟨f.size, f.ctime, f.atime⟩))

/-- Translation of `EvidenceManager.__init__`: empty mappings, zero byte counter, budget
`max_cache_size_mb * 1024 * 1024`, then `_load_existing_cache` over the
PNG files present in the two cache subdirectories. -/
def initManager (max_cache_size_mb : Int) (renders crops : List DiskFile) : EMState :=
  loadCrops crops (loadRenders renders
    { render_cache := [], crop_cache := [], current_cache_size := 0,
      max_cache_size_bytes := max_cache_size_mb * 1024 * 1024,
      fs := initFS renders crops })

/-! ### Concrete fixtures used by witnesses and counterexamples -/

/-- A one-page source PDF with mtime 1 whose page renders to a 100×100
pixmap saved as a 1000-byte PNG. -/
def pdfInfoW : PdfInfo :=
  { mtime := 1, pages := 1, pixW := fun _ _ => 100, pixH := fun _ _ => 100,
    pngSize := fun _ _ => 1000 }

/-- An environment with the single PDF `a.pdf`, an injective stand-in for
the truncated mtime hash, and images that open cleanly. -/
def envW : Env :=
  { pdfs := fun p => if p = "a.pdf" then some pdfInfoW else none,
    mtimeHash := fun q => toString q,
    imgOk := fun _ => true, imgW := fun _ => 200, imgH := fun _ => 200,
    cropSize := fun _ => 50, now := 10 }

/-- Like `envW` but every attempt to open an image fails (a corrupt
full-page PNG), so `crop_png` raises on a fresh crop. -/
def envF : Env := { envW with imgOk := fun _ => false }

/-- Like `envW` but `a.pdf` has been modified: its mtime is now 2. -/
def env2 : Env :=
  { envW with
    pdfs := fun p => if p = "a.pdf" then some ({ pdfInfoW with mtime := 2 }) else none }

/-- A freshly constructed manager over empty cache directories with the
default 500 MB budget. -/
def s0 : EMState := initManager 500 [] []

/-- A freshly constructed manager with a zero-byte budget. -/
def s0z : EMState := initManager 0 [] []

/-- The full-page bounding box. -/
def bboxW : BBoxNorm := ⟨0, 0, 1, 1⟩

/-- An ROI on page 1 of block `b` at 150 dpi. -/
def roiW : RequestedROI := ⟨"b", 1, bboxW, 150⟩

/-! ### C1 -/

/-- C1: the claimed invariant — the running total `_current_cache_size`
equals the sum of `size_bytes` over the two live in-memory mappings in
every reachable state, restored after every insertion/eviction including
construction — is violated by the code already at cold start: for a
renders directory holding one well-formed cache file of 100 bytes,
`_load_existing_cache` adds 100 to the running total but stores no entry
in either mapping (the `CacheEntry` it builds for a render file is a dead
local), so the total is 100 while the sum over both mappings is 0. -/
theorem c1_cold_start_invariant_violated :
    (initManager 500 [⟨"blk_p0_d150_vdeadbeef", 100, 5, 7⟩] []).current_cache_size = 100 ∧
    entriesSize (initManager 500 [⟨"blk_p0_d150_vdeadbeef", 100, 5, 7⟩] []).render_cache +
      entriesSize (initManager 500 [⟨"blk_p0_d150_vdeadbeef", 100, 5, 7⟩] []).crop_cache = 0 := by
  decide

/-! ### C4 -/

/-- C4: the claim that at construction every PNG in the renders
subdirectory is loaded as an entry into the render cache is false: the
source constructs the `CacheEntry` for each render file into a local
variable that is never stored (`_render_cache` stays empty; only the byte
counter grows), while the crops pass does store its entries. Lookups and
evictions therefore never see cold-start render files. -/
theorem c4_cold_start_renders_never_registered :
    (initManager 500 [⟨"b2_p3_d200_vcafef00d", 77, 1, 2⟩] []).render_cache = [] ∧
    (initManager 500 [⟨"b2_p3_d200_vcafef00d", 77, 1, 2⟩] []).current_cache_size = 77 ∧
    (initManager 500 [] [⟨"b2_p3_d200_crop_x", 40, 1, 2⟩]).crop_cache =
      [("b2_p3_d200_crop_x", ⟨"crops/b2_p3_d200_crop_x.png", 40, 1, 0, 2⟩)] := by
  decide

/-! ### C2 counterexample -/

/-- C2 counterexample: one ROI whose block has an available source path
and which succeeds via the fallback-to-full-page path (the crop fails,
`render_and_crop_roi` returns `Except.ok` with `is_fallback = true`), yet
`gather_evidence_for_rois` returns a non-empty warnings list — the code
appends a warning for every fallback, so "warnings is empty iff every
region had an available path and succeeded possibly via fallback" is
false as stated. -/
theorem c2_counterexample :
    (List.find? (fun kv => kv.1 == roiW.block_id) [("b", "a.pdf")]).isSome = true ∧
    (render_and_crop_roi envF s0 roiW "a.pdf").1 = Except.ok
      { block_id := "b", page := 0, dpi := 150,
        png_path := "renders/b_p0_d150_v1.png", is_crop := true,
        bbox_norm := some bboxW, crop_path := some "renders/b_p0_d150_v1.png",
        is_fallback := true } ∧
    (gather_evidence_for_rois envF s0 [roiW] [("b", "a.pdf")] false).1.2 =
      ["Block b: crop failed, using full page"] := by
  decide

/-! ### C3 counterexample -/

/-- C3 counterexample: with `include_full_page = true` and a single ROI
whose crop falls back to the full page, the full-page path is appended by
the full-page branch and then appended a second time by the crop branch
(the `seen_crops` set does not know about full-page insertions), so the
returned `evidence_paths` contains the same path twice. -/
theorem c3_counterexample :
    (gather_evidence_for_rois envF s0 [roiW] [("b", "a.pdf")] true).1.1 =
      ["renders/b_p0_d150_v1.png", "renders/b_p0_d150_v1.png"] := by
  decide

/-! ### C7 counterexample -/

/-- C7 counterexample: under a zero-byte budget, rendering block `b`
page 0 at 150 dpi under mtime 1 and then again under mtime 2 yields two
distinct paths, but the second render's eviction pass deletes the first
version's file — so "the old version's file is not deleted by the render
itself — both files may coexist until explicit cleanup" is false as
stated: the render may delete the old file through the LRU eviction it
triggers. -/
theorem c7_counterexample :
    (render_pdf_page_to_png envW s0z "a.pdf" "b" 0 150).1 =
      Except.ok "renders/b_p0_d150_v1.png" ∧
    (render_pdf_page_to_png env2
        (render_pdf_page_to_png envW s0z "a.pdf" "b" 0 150).2 "a.pdf" "b" 0 150).1 =
      Except.ok "renders/b_p0_d150_v2.png" ∧
    "renders/b_p0_d150_v1.png" ≠ "renders/b_p0_d150_v2.png" ∧
    fsExists (render_pdf_page_to_png env2
        (render_pdf_page_to_png envW s0z "a.pdf" "b" 0 150).2 "a.pdf" "b" 0 150).2.fs
      "renders/b_p0_d150_v1.png" = false := by
  decide

/-! ### C10 -/

/-- C10: whenever `render_and_crop_roi` returns normally, the returned
`RenderedEvidence` has `is_crop = true` unconditionally — including when
the crop failed and the fallback substituted the full-page path — so
`is_crop` does not indicate that an actual cropped image was produced. -/
theorem c10_is_crop_unconditionally_true (env : Env) (s : EMState)
    (roi : RequestedROI) (pdf_path : String) (fb : Bool) (ev : RenderedEvidence)
    (h : (render_and_crop_roi env s roi pdf_path fb).1 = Except.ok ev) :
    ev.is_crop = true := by
  unfold render_and_crop_roi at h
  split at h
  · simp at h
  · split at h
    · simp only [Except.ok.injEq] at h
      rw [← h]
    · split at h
      · simp only [Except.ok.injEq] at h
        rw [← h]
      · simp at h

/-- C10 witness: a concrete fallback run (`envF` makes the crop fail)
returning normally, fed through `c10_is_crop_unconditionally_true`. -/
theorem c10_witness :
    ({ block_id := "b", page := 0, dpi := 150,
       png_path := "renders/b_p0_d150_v1.png", is_crop := true,
       bbox_norm := some bboxW, crop_path := some "renders/b_p0_d150_v1.png",
       is_fallback := true } : RenderedEvidence).is_crop = true :=
  c10_is_crop_unconditionally_true envF s0 roiW "a.pdf" true _ (by decide)

/-! ### C8 -/

theorem clamp01_nonneg (q : ℚ) : 0 ≤ clamp01 q := le_max_left 0 _

theorem clamp01_le_one (q : ℚ) : clamp01 q ≤ 1 :=
  max_le zero_le_one (min_le_left 1 q)

/-- Either the x interval was empty/reversed after clamping and was
replaced by the full width, or it was kept as the clamped coordinates. -/
theorem corrected_x_cases (b : BBoxNorm) :
    (clamp01 b.x1 ≤ clamp01 b.x0 ∧ (correctedBBoxOf b).x0 = 0 ∧ (correctedBBoxOf b).x1 = 1) ∨
    (clamp01 b.x0 < clamp01 b.x1 ∧ (correctedBBoxOf b).x0 = clamp01 b.x0 ∧
      (correctedBBoxOf b).x1 = clamp01 b.x1) := by
  by_cases hx : clamp01 b.x1 ≤ clamp01 b.x0
  · exact Or.inl ⟨hx, by simp [correctedBBoxOf, hx], by simp [correctedBBoxOf, hx]⟩
  · exact Or.inr ⟨not_le.mp hx, by simp [correctedBBoxOf, hx], by simp [correctedBBoxOf, hx]⟩

/-- Symmetric case split for the y interval. -/
theorem corrected_y_cases (b : BBoxNorm) :
    (clamp01 b.y1 ≤ clamp01 b.y0 ∧ (correctedBBoxOf b).y0 = 0 ∧ (correctedBBoxOf b).y1 = 1) ∨
    (clamp01 b.y0 < clamp01 b.y1 ∧ (correctedBBoxOf b).y0 = clamp01 b.y0 ∧
      (correctedBBoxOf b).y1 = clamp01 b.y1) := by
  by_cases hy : clamp01 b.y1 ≤ clamp01 b.y0
  · exact Or.inl ⟨hy, by simp [correctedBBoxOf, hy], by simp [correctedBBoxOf, hy]⟩
  · exact Or.inr ⟨not_le.mp hy, by simp [correctedBBoxOf, hy], by simp [correctedBBoxOf, hy]⟩

theorem pyInt_of_nonneg {q : ℚ} (h : 0 ≤ q) : pyInt q = ⌊q⌋ := by
  simp [pyInt, not_lt.mpr h]

/-- The one-dimensional widening step of `crop_png`: the widened right
edge never shrinks, stays within the image, and guarantees width at least
`min 10 (w - left)` — the edge extension is clamped to the image bound. -/
theorem pixel_widen (x0 x1 : ℚ) (w : Int) (hw : 0 ≤ w) (h10 : 0 ≤ x1) (h11 : x1 ≤ 1) :
    pyInt (x1 * (w : ℚ)) ≤
      (if pyInt (x1 * (w : ℚ)) - pyInt (x0 * (w : ℚ)) < 10
       then min (pyInt (x0 * (w : ℚ)) + 10) w else pyInt (x1 * (w : ℚ))) ∧
    (if pyInt (x1 * (w : ℚ)) - pyInt (x0 * (w : ℚ)) < 10
       then min (pyInt (x0 * (w : ℚ)) + 10) w else pyInt (x1 * (w : ℚ))) ≤ w ∧
    min 10 (w - pyInt (x0 * (w : ℚ))) ≤
      (if pyInt (x1 * (w : ℚ)) - pyInt (x0 * (w : ℚ)) < 10
       then min (pyInt (x0 * (w : ℚ)) + 10) w else pyInt (x1 * (w : ℚ))) -
        pyInt (x0 * (w : ℚ)) := by
  have hwq : (0 : ℚ) ≤ (w : ℚ) := by exact_mod_cast hw
  have h0 : 0 ≤ x1 * (w : ℚ) := mul_nonneg h10 hwq
  have hle : x1 * (w : ℚ) ≤ (w : ℚ) := mul_le_of_le_one_left hwq h11
  have hr0w : pyInt (x1 * (w : ℚ)) ≤ w := by
    rw [pyInt_of_nonneg h0]
    calc ⌊x1 * (w : ℚ)⌋ ≤ ⌊(w : ℚ)⌋ := Int.floor_le_floor hle
    _ = w := Int.floor_intCast w
  by_cases hc : pyInt (x1 * (w : ℚ)) - pyInt (x0 * (w : ℚ)) < 10
  · rw [if_pos hc]
    refine ⟨le_min (by linarith) hr0w, min_le_right _ _, ?_⟩
    rw [← min_sub_sub_right, add_sub_cancel_left]
  · rw [if_neg hc]
    exact ⟨le_refl _, hr0w, le_trans (min_le_left _ _) (by linarith [not_lt.mp hc])⟩

/-- C8: `crop_png` clamps all four coordinates into `[0, 1]`; an
empty/reversed x interval becomes the full width `(0, 1)` (symmetric for
y), so the corrected box is never degenerate; and the pixel rectangle is
widened to at least 10 pixels per dimension by extending only the
right/bottom edge, clamped to the image bounds, never moving left/top. -/
theorem c8_bbox_correction (b : BBoxNorm) (w h : Int) (hw : 0 ≤ w) (hh : 0 ≤ h) :
    (0 ≤ (correctedBBoxOf b).x0 ∧ (correctedBBoxOf b).x0 ≤ 1 ∧
     0 ≤ (correctedBBoxOf b).y0 ∧ (correctedBBoxOf b).y0 ≤ 1 ∧
     0 ≤ (correctedBBoxOf b).x1 ∧ (correctedBBoxOf b).x1 ≤ 1 ∧
     0 ≤ (correctedBBoxOf b).y1 ∧ (correctedBBoxOf b).y1 ≤ 1) ∧
    ((correctedBBoxOf b).x0 < (correctedBBoxOf b).x1 ∧
     (correctedBBoxOf b).y0 < (correctedBBoxOf b).y1) ∧
    (clamp01 b.x1 ≤ clamp01 b.x0 →
      (correctedBBoxOf b).x0 = 0 ∧ (correctedBBoxOf b).x1 = 1) ∧
    (clamp01 b.x0 < clamp01 b.x1 →
      (correctedBBoxOf b).x0 = clamp01 b.x0 ∧ (correctedBBoxOf b).x1 = clamp01 b.x1) ∧
    (clamp01 b.y1 ≤ clamp01 b.y0 →
      (correctedBBoxOf b).y0 = 0 ∧ (correctedBBoxOf b).y1 = 1) ∧
    (clamp01 b.y0 < clamp01 b.y1 →
      (correctedBBoxOf b).y0 = clamp01 b.y0 ∧ (correctedBBoxOf b).y1 = clamp01 b.y1) ∧
    ((pixelRect w h (correctedBBoxOf b)).1 = pyInt ((correctedBBoxOf b).x0 * (w : ℚ)) ∧
     (pixelRect w h (correctedBBoxOf b)).2.1 = pyInt ((correctedBBoxOf b).y0 * (h : ℚ))) ∧
    (pyInt ((correctedBBoxOf b).x1 * (w : ℚ)) ≤ (pixelRect w h (correctedBBoxOf b)).2.2.1 ∧
     (pixelRect w h (correctedBBoxOf b)).2.2.1 ≤ w ∧
     min 10 (w - (pixelRect w h (correctedBBoxOf b)).1) ≤
       (pixelRect w h (correctedBBoxOf b)).2.2.1 - (pixelRect w h (correctedBBoxOf b)).1) ∧
    (pyInt ((correctedBBoxOf b).y1 * (h : ℚ)) ≤ (pixelRect w h (correctedBBoxOf b)).2.2.2 ∧
     (pixelRect w h (correctedBBoxOf b)).2.2.2 ≤ h ∧
     min 10 (h - (pixelRect w h (correctedBBoxOf b)).2.1) ≤
       (pixelRect w h (correctedBBoxOf b)).2.2.2 - (pixelRect w h (correctedBBoxOf b)).2.1) := by
  have hxb : 0 ≤ (correctedBBoxOf b).x0 ∧ (correctedBBoxOf b).x0 ≤ 1 ∧
      0 ≤ (correctedBBoxOf b).x1 ∧ (correctedBBoxOf b).x1 ≤ 1 ∧
      (correctedBBoxOf b).x0 < (correctedBBoxOf b).x1 := by
    rcases corrected_x_cases b with ⟨_, h0, h1⟩ | ⟨hlt, h0, h1⟩
    · rw [h0, h1]; norm_num
    · rw [h0, h1]
      exact ⟨clamp01_nonneg _, clamp01_le_one _, clamp01_nonneg _, clamp01_le_one _, hlt⟩
  have hyb : 0 ≤ (correctedBBoxOf b).y0 ∧ (correctedBBoxOf b).y0 ≤ 1 ∧
      0 ≤ (correctedBBoxOf b).y1 ∧ (correctedBBoxOf b).y1 ≤ 1 ∧
      (correctedBBoxOf b).y0 < (correctedBBoxOf b).y1 := by
    rcases corrected_y_cases b with ⟨_, h0, h1⟩ | ⟨hlt, h0, h1⟩
    · rw [h0, h1]; norm_num
    · rw [h0, h1]
      exact ⟨clamp01_nonneg _, clamp01_le_one _, clamp01_nonneg _, clamp01_le_one _, hlt⟩
  obtain ⟨hx00, hx01, hx10, hx11, hxlt⟩ := hxb
  obtain ⟨hy00, hy01, hy10, hy11, hylt⟩ := hyb
  have hwx := pixel_widen (correctedBBoxOf b).x0 (correctedBBoxOf b).x1 w hw hx10 hx11
  have hwy := pixel_widen (correctedBBoxOf b).y0 (correctedBBoxOf b).y1 h hh hy10 hy11
  refine ⟨⟨hx00, hx01, hy00, hy01, hx10, hx11, hy10, hy11⟩, ⟨hxlt, hylt⟩, ?_, ?_, ?_, ?_,
    ⟨rfl, rfl⟩, hwx, hwy⟩
  · intro hx
    rcases corrected_x_cases b with ⟨_, h0, h1⟩ | ⟨hlt, _, _⟩
    · exact ⟨h0, h1⟩
    · exact absurd hx (not_le.mpr hlt)
  · intro hx
    rcases corrected_x_cases b with ⟨hle, _, _⟩ | ⟨_, h0, h1⟩
    · exact absurd hle (not_le.mpr hx)
    · exact ⟨h0, h1⟩
  · intro hy
    rcases corrected_y_cases b with ⟨_, h0, h1⟩ | ⟨hlt, _, _⟩
    · exact ⟨h0, h1⟩
    · exact absurd hy (not_le.mpr hlt)
  · intro hy
    rcases corrected_y_cases b with ⟨hle, _, _⟩ | ⟨_, h0, h1⟩
    · exact absurd hle (not_le.mpr hy)
    · exact ⟨h0, h1⟩

/-- C8 witness: the spec's own test vector — the inverted-x box
`(0.6, 0.1, 0.2, 0.9)` on a 1000×1000 image — with the corrected box
checked to be `(0.0, 0.1, 1.0, 0.9)`. -/
theorem c8_witness :
    correctedBBoxOf ⟨mkRat 6 10, mkRat 1 10, mkRat 2 10, mkRat 9 10⟩ = ⟨0, mkRat 1 10, 1, mkRat 9 10⟩ ∧
    (0 ≤ (correctedBBoxOf ⟨mkRat 6 10, mkRat 1 10, mkRat 2 10, mkRat 9 10⟩).x0 ∧
     (correctedBBoxOf ⟨mkRat 6 10, mkRat 1 10, mkRat 2 10, mkRat 9 10⟩).x0 ≤ 1 ∧
     0 ≤ (correctedBBoxOf ⟨mkRat 6 10, mkRat 1 10, mkRat 2 10, mkRat 9 10⟩).y0 ∧
     (correctedBBoxOf ⟨mkRat 6 10, mkRat 1 10, mkRat 2 10, mkRat 9 10⟩).y0 ≤ 1 ∧
     0 ≤ (correctedBBoxOf ⟨mkRat 6 10, mkRat 1 10, mkRat 2 10, mkRat 9 10⟩).x1 ∧
     (correctedBBoxOf ⟨mkRat 6 10, mkRat 1 10, mkRat 2 10, mkRat 9 10⟩).x1 ≤ 1 ∧
     0 ≤ (correctedBBoxOf ⟨mkRat 6 10, mkRat 1 10, mkRat 2 10, mkRat 9 10⟩).y1 ∧
     (correctedBBoxOf ⟨mkRat 6 10, mkRat 1 10, mkRat 2 10, mkRat 9 10⟩).y1 ≤ 1) ∧
    ((correctedBBoxOf ⟨mkRat 6 10, mkRat 1 10, mkRat 2 10, mkRat 9 10⟩).x0 < (correctedBBoxOf ⟨mkRat 6 10, mkRat 1 10, mkRat 2 10, mkRat 9 10⟩).x1 ∧
     (correctedBBoxOf ⟨mkRat 6 10, mkRat 1 10, mkRat 2 10, mkRat 9 10⟩).y0 < (correctedBBoxOf ⟨mkRat 6 10, mkRat 1 10, mkRat 2 10, mkRat 9 10⟩).y1) :=
  ⟨by decide,
   (c8_bbox_correction ⟨mkRat 6 10, mkRat 1 10, mkRat 2 10, mkRat 9 10⟩ 1000 1000 (by decide) (by decide)).1,
   (c8_bbox_correction ⟨mkRat 6 10, mkRat 1 10, mkRat 2 10, mkRat 9 10⟩ 1000 1000 (by decide) (by decide)).2.1⟩

/-! ### Ordered-dict and filesystem lemmas -/

theorem odLookup_odSet_self {κ : Type} [DecidableEq κ] (d : ODict κ) (k : κ)
    (v : CacheEntry) : odLookup (odSet d k v) k = some v := by
  induction d with
  | nil => simp [odSet, odLookup]
  | cons kv rest ih =>
      obtain ⟨k', v'⟩ := kv
      by_cases h : k' = k
      · simp [odSet, h, odLookup]
      · simp [odSet, h, odLookup, ih]

theorem odLookup_odSet_ne {κ : Type} [DecidableEq κ] (d : ODict κ) (k k' : κ)
    (v : CacheEntry) (h : k ≠ k') : odLookup (odSet d k v) k' = odLookup d k' := by
  induction d with
  | nil => simp [odSet, odLookup, h]
  | cons kv rest ih =>
      obtain ⟨k1, v1⟩ := kv
      by_cases h1 : k1 = k
      · simp [odSet, h1, odLookup, h]
      · simp [odSet, h1, odLookup, ih]

theorem fsExists_fsWrite_self (fs : FS) (p : String) (size : Int) (now : ℚ) :
    fsExists (fsWrite fs p size now) p = true := by
  simp [fsExists, fsWrite]

theorem fsExists_of_fsStat (fs : FS) (p : String) (fi : FileInfo)
    (h : fsStat fs p = some fi) : fsExists fs p = true := by
  induction fs with
  | nil => simp [fsStat] at h
  | cons kv rest ih =>
      by_cases hk : kv.1 = p
      · simp [fsExists, hk]
      · simp only [fsStat, hk, if_false, if_neg hk] at h
        simp [fsExists, hk, ih h]

/-! ### C5 -/

/-- C5: when the full-page render succeeds and the crop fails, the
orchestrator returns a fallback `RenderedEvidence` (`is_fallback = true`,
`crop_path` equal to the full-page path) if `fallback_to_full_page` is
true, and propagates the crop error if it is false; a render failure is
always fatal — wrapped and re-raised — whatever the fallback flag. -/
theorem c5_fallback_policy (env : Env) (s : EMState) (roi : RequestedROI)
    (pdf_path : String) :
    (∀ p e,
      (render_pdf_page_to_png env s pdf_path roi.block_id (roi.page - 1) roi.dpi).1 =
        Except.ok p →
      (crop_png env (render_pdf_page_to_png env s pdf_path roi.block_id (roi.page - 1) roi.dpi).2
        p roi.bbox_norm roi.block_id (roi.page - 1) roi.dpi).1 = Except.error e →
      (render_and_crop_roi env s roi pdf_path true).1 = Except.ok
        { block_id := roi.block_id, page := roi.page - 1, dpi := roi.dpi,
          png_path := p, is_crop := true, bbox_norm := some roi.bbox_norm,
          crop_path := some p, is_fallback := true } ∧
      (render_and_crop_roi env s roi pdf_path false).1 = Except.error e) ∧
    (∀ e,
      (render_pdf_page_to_png env s pdf_path roi.block_id (roi.page - 1) roi.dpi).1 =
        Except.error e →
      ∀ fb, (render_and_crop_roi env s roi pdf_path fb).1 =
        Except.error ("Failed to render page for block " ++ roi.block_id ++ ": " ++ e)) := by
  constructor
  · intro p e hp hc
    rcases h1 : render_pdf_page_to_png env s pdf_path roi.block_id (roi.page - 1) roi.dpi
      with ⟨r1, s1⟩
    rw [h1] at hp hc
    dsimp only at hp hc
    cases r1 with
    | error e1 => simp at hp
    | ok p1 =>
        simp only [Except.ok.injEq] at hp
        subst hp
        rcases h2 : crop_png env s1 p1 roi.bbox_norm roi.block_id (roi.page - 1) roi.dpi
          with ⟨r2, s2⟩
        rw [h2] at hc
        dsimp only at hc
        cases r2 with
        | ok c => simp at hc
        | error e2 =>
            simp only [Except.error.injEq] at hc
            subst hc
            exact ⟨by simp [render_and_crop_roi, h1, h2],
                   by simp [render_and_crop_roi, h1, h2]⟩
  · intro e he fb
    rcases h1 : render_pdf_page_to_png env s pdf_path roi.block_id (roi.page - 1) roi.dpi
      with ⟨r1, s1⟩
    rw [h1] at he
    dsimp only at he
    cases r1 with
    | ok p1 => simp at he
    | error e1 =>
        simp only [Except.error.injEq] at he
        subst he
        simp [render_and_crop_roi, h1]

/-- C5 witness: under `envF` (the full-page PNG cannot be opened) the crop
fails after a successful render; with fallback the run returns the
full-page path as the crop with `is_fallback = true`, without fallback the
crop error propagates. -/
theorem c5_witness :
    (render_and_crop_roi envF s0 roiW "a.pdf" true).1 = Except.ok
      { block_id := "b", page := 0, dpi := 150,
        png_path := "renders/b_p0_d150_v1.png", is_crop := true,
        bbox_norm := some bboxW, crop_path := some "renders/b_p0_d150_v1.png",
        is_fallback := true } ∧
    (render_and_crop_roi envF s0 roiW "a.pdf" false).1 =
      Except.error "cannot open image file renders/b_p0_d150_v1.png" :=
  (c5_fallback_policy envF s0 roiW "a.pdf").1 "renders/b_p0_d150_v1.png"
    "cannot open image file renders/b_p0_d150_v1.png" (by decide) (by decide)

/-! ### C6 -/

/-- Postcondition of a successful `renderMiss`: the versioned key now maps
to an entry whose path is the returned path, and that file exists. -/
theorem renderMiss_ok (env : Env) (s : EMState) (info : PdfInfo)
    (block_id : String) (page dpi : Int) (m : ℚ) (p : String)
    (h : (renderMiss env s info block_id page dpi m).1 = Except.ok p) :
    ∃ e, odLookup (renderMiss env s info block_id page dpi m).2.render_cache
        (block_id, page, dpi, m) = some e ∧ e.path = p ∧
      fsExists (renderMiss env s info block_id page dpi m).2.fs p = true := by
  rcases hs : fsStat s.fs ("renders/" ++ get_versioned_cache_key env block_id page dpi m ++ ".png")
    with _ | fi
  · by_cases hp : info.pages ≤ page
    · simp [renderMiss, hs, hp] at h
    · simp only [renderMiss, hs, hp, if_false, if_neg hp] at h ⊢
      simp only [Except.ok.injEq] at h
      subst h
      exact ⟨_, odLookup_odSet_self _ _ _, rfl, fsExists_fsWrite_self _ _ _ _⟩
  · simp only [renderMiss, hs] at h ⊢
    simp only [Except.ok.injEq] at h
    subst h
    exact ⟨_, odLookup_odSet_self _ _ _, rfl, fsExists_of_fsStat _ _ _ hs⟩

/-- Postcondition of a successful `render_pdf_page_to_png`: the source PDF
exists, the versioned key maps to an entry whose path is the returned
path, and the returned file exists on disk. -/
theorem render_ok_post (env : Env) (s : EMState) (pdf_path block_id : String)
    (page dpi0 : Int) (p : String)
    (h : (render_pdf_page_to_png env s pdf_path block_id page dpi0).1 = Except.ok p) :
    ∃ info, env.pdfs pdf_path = some info ∧
      ∃ e, odLookup (render_pdf_page_to_png env s pdf_path block_id page dpi0).2.render_cache
            (block_id, page, max 72 (min 600 dpi0), info.mtime) = some e ∧
          e.path = p ∧
          fsExists (render_pdf_page_to_png env s pdf_path block_id page dpi0).2.fs p = true := by
  rcases he : env.pdfs pdf_path with _ | info
  · simp [render_pdf_page_to_png, he] at h
  · refine ⟨info, rfl, ?_⟩
    rcases hl : odLookup s.render_cache (block_id, page, max 72 (min 600 dpi0), info.mtime)
      with _ | entry
    · simp only [render_pdf_page_to_png, he, hl] at h ⊢
      exact renderMiss_ok env s info block_id page (max 72 (min 600 dpi0)) info.mtime p h
    · by_cases hex : fsExists s.fs entry.path
      · simp only [render_pdf_page_to_png, he, hl, hex, if_true] at h ⊢
        simp only [Except.ok.injEq] at h
        subst h
        exact ⟨_, odLookup_odSet_self _ _ _, rfl, hex⟩
      · simp only [render_pdf_page_to_png, he, hl, hex, Bool.false_eq_true, if_false] at h ⊢
        exact renderMiss_ok env s info block_id page (max 72 (min 600 dpi0)) info.mtime p h

/-- A call that finds a live in-memory entry whose file exists is a pure
cache hit: it returns the entry's path and leaves the disk untouched. -/
theorem render_hit (env : Env) (s : EMState) (pdf_path block_id : String)
    (page dpi0 : Int) (info : PdfInfo) (e : CacheEntry)
    (he : env.pdfs pdf_path = some info)
    (hl : odLookup s.render_cache (block_id, page, max 72 (min 600 dpi0), info.mtime) = some e)
    (hex : fsExists s.fs e.path = true) :
    (render_pdf_page_to_png env s pdf_path block_id page dpi0).1 = Except.ok e.path ∧
    (render_pdf_page_to_png env s pdf_path block_id page dpi0).2.fs = s.fs := by
  constructor <;> simp [render_pdf_page_to_png, he, hl, hex]

/-- C6: with an unchanged source file, a second call to
`render_pdf_page_to_png` with identical inputs returns the identical path
and performs no disk write — the cache directory after the second call is
exactly the one after the first (the second call is resolved as an
in-memory hit on the entry the first call guaranteed). -/
theorem c6_render_idempotent (env : Env) (s : EMState) (pdf_path block_id : String)
    (page dpi : Int) (p : String)
    (h : (render_pdf_page_to_png env s pdf_path block_id page dpi).1 = Except.ok p) :
    (render_pdf_page_to_png env (render_pdf_page_to_png env s pdf_path block_id page dpi).2
       pdf_path block_id page dpi).1 = Except.ok p ∧
    (render_pdf_page_to_png env (render_pdf_page_to_png env s pdf_path block_id page dpi).2
       pdf_path block_id page dpi).2.fs =
      (render_pdf_page_to_png env s pdf_path block_id page dpi).2.fs := by
  obtain ⟨info, he, e, hl, hp, hex⟩ := render_ok_post env s pdf_path block_id page dpi p h
  have hex' : fsExists (render_pdf_page_to_png env s pdf_path block_id page dpi).2.fs e.path = true := by
    rw [hp]; exact hex
  have hhit := render_hit env (render_pdf_page_to_png env s pdf_path block_id page dpi).2
    pdf_path block_id page dpi info e he hl hex'
  exact ⟨by rw [hhit.1, hp], hhit.2⟩

/-- C6 witness: a concrete double render through `c6_render_idempotent`. -/
theorem c6_witness :
    (render_pdf_page_to_png envW (render_pdf_page_to_png envW s0 "a.pdf" "b" 0 150).2
       "a.pdf" "b" 0 150).1 = Except.ok "renders/b_p0_d150_v1.png" ∧
    (render_pdf_page_to_png envW (render_pdf_page_to_png envW s0 "a.pdf" "b" 0 150).2
       "a.pdf" "b" 0 150).2.fs =
      (render_pdf_page_to_png envW s0 "a.pdf" "b" 0 150).2.fs :=
  c6_render_idempotent envW s0 "a.pdf" "b" 0 150 "renders/b_p0_d150_v1.png" (by decide)

/-! ### C2 -/

/-- The amended C2 success predicate: every requested region has an
available source path in `block_paths` and its `render_and_crop_roi` call
returns normally without resorting to the fallback, with the manager
state threaded from region to region exactly as the batch loop does. -/
def cleanRun (env : Env) (block_paths : List (String × String)) :
    List RequestedROI → EMState → Bool
  | [], _ => true
  | roi :: rest, s =>
      match (block_paths.find? (fun kv => kv.1 == roi.block_id)).map (fun kv => kv.2) with
      | none => false
      | some pdf_path =>
          match render_and_crop_roi env s roi pdf_path with
      | (Except.ok evd, s1) => !evd.is_fallback && cleanRun env block_paths rest s1
      | (Except.error _, _) => false

/-- The warnings accumulated by the batch loop are empty exactly when the
incoming accumulator was empty and the whole remaining run is clean. -/
theorem gatherLoop_warnings_iff (env : Env) (b : Bool) (bp : List (String × String)) :
    ∀ (rois : List RequestedROI) (s : EMState) (ev ws seen : List String),
    ((gatherLoop env b bp rois s ev ws seen).1.2 = [] ↔
      (ws = [] ∧ cleanRun env bp rois s = true)) := by
  intro rois
  induction rois with
  | nil =>
      intro s ev ws seen
      simp [gatherLoop, cleanRun]
  | cons roi rest ih =>
      intro s ev ws seen
      rcases hb : (bp.find? (fun kv => kv.1 == roi.block_id)).map (fun kv => kv.2) with _ | pdf
      · simp only [gatherLoop, hb]
        rw [ih]
        simp [cleanRun, hb]
      · rcases hr : render_and_crop_roi env s roi pdf with ⟨r1, s1⟩
        cases r1 with
        | error e =>
            simp only [gatherLoop, hb, hr]
            rw [ih]
            simp [cleanRun, hb, hr]
        | ok evd =>
            rcases hf : evd.is_fallback with _ | _
            · simp only [gatherLoop, hb, hr, hf]
              rw [ih]
              simp [cleanRun, hb, hr, hf]
            · simp only [gatherLoop, hb, hr, hf]
              rw [ih]
              simp [cleanRun, hb, hr, hf]

/-- C2 (amended): the warnings list of `gather_evidence_for_rois` is empty
iff every region in `rois` had an available source path, succeeded, and
did not use the fallback — a region that succeeds via the
fallback-to-full-page path does contribute a warning. -/
theorem c2_warnings_empty_iff (env : Env) (s : EMState) (rois : List RequestedROI)
    (bp : List (String × String)) (b : Bool) :
    ((gather_evidence_for_rois env s rois bp b).1.2 = []) ↔
      cleanRun env bp rois s = true := by
  unfold gather_evidence_for_rois
  rw [gatherLoop_warnings_iff]
  simp

/-! ### C3 -/

/-- With `include_full_page = false`, the output-path accumulator stays
duplicate-free: every emitted path is recorded in `seen_crops` before it
is appended, and the full-page branch never runs. -/
theorem gatherLoop_nodup (env : Env) (bp : List (String × String)) :
    ∀ (rois : List RequestedROI) (s : EMState) (ev ws seen : List String),
    ev.Nodup → (∀ x ∈ ev, x ∈ seen) →
    ((gatherLoop env false bp rois s ev ws seen).1.1).Nodup := by
  intro rois
  induction rois with
  | nil =>
      intro s ev ws seen hnd _
      exact hnd
  | cons roi rest ih =>
      intro s ev ws seen hnd hsub
      rcases hb : (bp.find? (fun kv => kv.1 == roi.block_id)).map (fun kv => kv.2) with _ | pdf
      · simp only [gatherLoop, hb]
        exact ih _ _ _ _ hnd hsub
      · rcases hr : render_and_crop_roi env s roi pdf with ⟨r1, s1⟩
        cases r1 with
        | error e =>
            simp only [gatherLoop, hb, hr]
            exact ih _ _ _ _ hnd hsub
        | ok evd =>
            simp only [gatherLoop, hb, hr, Bool.false_eq_true, false_and, if_false]
            by_cases hck : evd.crop_path.getD "None" ∈ seen
            · simp only [hck, if_true, if_pos hck]
              exact ih _ _ _ _ hnd hsub
            · simp only [hck, if_false, if_neg hck]
              refine ih _ _ _ _ ?_ ?_
              · refine List.nodup_append.mpr ⟨hnd, List.nodup_singleton _, ?_⟩
                intro x hx hx'
                rw [List.mem_singleton] at hx'
                exact hck (hx' ▸ hsub x hx)
              · intro x hx
                rcases List.mem_append.mp hx with hx | hx
                · exact List.mem_append.mpr (Or.inl (hsub x hx))
                · exact List.mem_append.mpr (Or.inr hx)

/-- Each region contributes at most one full-page path (only when
`include_full_page` is set) and at most one crop path. -/
theorem gatherLoop_length (env : Env) (b : Bool) (bp : List (String × String)) :
    ∀ (rois : List RequestedROI) (s : EMState) (ev ws seen : List String),
    ((gatherLoop env b bp rois s ev ws seen).1.1).length ≤
      ev.length + rois.length * (1 + (if b then 1 else 0)) := by
  intro rois
  induction rois with
  | nil =>
      intro s ev ws seen
      simp [gatherLoop]
  | cons roi rest ih =>
      intro s ev ws seen
      rcases hb : (bp.find? (fun kv => kv.1 == roi.block_id)).map (fun kv => kv.2) with _ | pdf
      · simp only [gatherLoop, hb]
        have := ih s ev (ws ++ ["Block " ++ roi.block_id ++ " not found in available paths"]) seen
        rcases b with _ | _ <;> simp at * <;> omega
      · rcases hr : render_and_crop_roi env s roi pdf with ⟨r1, s1⟩
        cases r1 with
        | error e =>
            simp only [gatherLoop, hb, hr]
            have := ih s1 ev
              (ws ++ ["Failed to render ROI for block " ++ roi.block_id ++ ": " ++ e]) seen
            rcases b with _ | _ <;> simp at * <;> omega
        | ok evd =>
            simp only [gatherLoop, hb, hr]
            have hev1 : (if b = true ∧ evd.png_path ∉ ev then ev ++ [evd.png_path] else ev).length ≤
                ev.length + (if b then 1 else 0) := by
              rcases b with _ | _
              · simp
              · by_cases hmem : evd.png_path ∉ ev
                · simp [hmem]
                · simp [hmem]
            have hev2 : ∀ l : List String, ∀ ck : String,
                (if ck ∈ seen then l else l ++ [ck]).length ≤ l.length + 1 := by
              intro l ck
              by_cases hck : ck ∈ seen
              · simp [hck]
              · simp [hck]
            have h2 := hev2 (if b = true ∧ evd.png_path ∉ ev then ev ++ [evd.png_path] else ev)
              (evd.crop_path.getD "None")
            have h3 := ih s1
              (if evd.crop_path.getD "None" ∈ seen then
                (if b = true ∧ evd.png_path ∉ ev then ev ++ [evd.png_path] else ev)
               else
                (if b = true ∧ evd.png_path ∉ ev then ev ++ [evd.png_path] else ev) ++
                  [evd.crop_path.getD "None"])
              (if evd.is_fallback = true then
                ws ++ ["Block " ++ roi.block_id ++ ": crop failed, using full page"] else ws)
              (if evd.crop_path.getD "None" ∈ seen then seen
               else seen ++ [evd.crop_path.getD "None"])
            rcases b with _ | _ <;> simp at * <;> omega

/-- C3 (amended): `gather_evidence_for_rois` deduplicates crop paths by
first occurrence, so with `include_full_page = false` the returned list
contains no path twice, and the bound
`len(evidence_paths) ≤ len(rois) * (1 + include_full_page)` always holds;
however, when `include_full_page = true` a fallback crop path may
duplicate an already-included full-page path (a fallback crop path may repeat the full-page entry). -/
theorem c3_dedup_amended (env : Env) (s : EMState) (rois : List RequestedROI)
    (bp : List (String × String)) :
    ((gather_evidence_for_rois env s rois bp false).1.1).Nodup ∧
    (∀ b : Bool, ((gather_evidence_for_rois env s rois bp b).1.1).length ≤
      rois.length * (1 + (if b then 1 else 0))) := by
  constructor
  · exact gatherLoop_nodup env bp rois s [] [] [] List.nodup_nil (by simp)
  · intro b
    have := gatherLoop_length env b bp rois s [] [] []
    simpa using this

/-! ### C9 -/

theorem fsExists_fsRemove_self (fs : FS) (p : String) :
    fsExists (fsRemove fs p) p = false := by
  induction fs with
  | nil => simp [fsRemove, fsExists]
  | cons kv rest ih =>
      by_cases h : kv.1 = p
      · simp [fsRemove, h, ih]
      · simp [fsRemove, h, fsExists, ih]

theorem fsExists_fsRemove_ne (fs : FS) (p q : String) (h : q ≠ p) :
    fsExists (fsRemove fs p) q = fsExists fs q := by
  induction fs with
  | nil => rfl
  | cons kv rest ih =>
      simp only [fsRemove]
      by_cases h1 : kv.1 = p
      · rw [if_pos h1, ih]
        have h2 : kv.1 ≠ q := by
          rw [h1]
          exact fun hh => h hh.symm
        simp [fsExists, h2]
      · rw [if_neg h1]
        simp only [fsExists]
        by_cases h2 : kv.1 = q
        · rw [if_pos h2, if_pos h2]
        · rw [if_neg h2, if_neg h2, ih]

/-- If the running total is already at or under target, the eviction
loop does nothing. -/
theorem evictLoop_of_le {κ : Type} (target : Int) (l : ODict κ) (fs : FS)
    (size : Int) (h : size ≤ target) : evictLoop target l fs size = (l, fs, size) := by
  cases l with
  | nil => simp [evictLoop]
  | cons kv rest =>
      obtain ⟨k, e⟩ := kv
      simp [evictLoop, not_lt.mpr h]

/-- Full characterisation of one eviction loop over a mapping whose entry
files all exist under pairwise-distinct paths: it pops some
least-recently-used prefix, deletes exactly those files, decrements the
running total by exactly their recorded sizes, and stops only when the
total is back at or under target (or the mapping is exhausted). -/
theorem evictLoop_spec {κ : Type} (target : Int) :
    ∀ (l : ODict κ) (fs : FS) (size : Int),
    (l.map (fun kv => kv.2.path)).Nodup →
    (∀ p ∈ l.map (fun kv => kv.2.path), fsExists fs p = true) →
    ∃ n, (evictLoop target l fs size).1 = l.drop n ∧
      (evictLoop target l fs size).2.2 = size - entriesSize (l.take n) ∧
      (∀ p, p ∉ (l.take n).map (fun kv => kv.2.path) →
        fsExists (evictLoop target l fs size).2.1 p = fsExists fs p) ∧
      (∀ p ∈ (l.take n).map (fun kv => kv.2.path),
        fsExists (evictLoop target l fs size).2.1 p = false) ∧
      ((evictLoop target l fs size).1 ≠ [] → (evictLoop target l fs size).2.2 ≤ target) := by
  intro l
  induction l with
  | nil =>
      intro fs size _ _
      exact ⟨0, by simp [evictLoop], by simp [evictLoop, entriesSize],
        fun p _ => by simp [evictLoop], fun p hp => by simp at hp,
        fun h => absurd (by simp [evictLoop]) h⟩
  | cons kv rest ih =>
      intro fs size hnd hex
      obtain ⟨k, e⟩ := kv
      have hnd' : (rest.map (fun kv => kv.2.path)).Nodup :=
        (List.nodup_cons.mp (by simpa using hnd)).2
      have hnotin : e.path ∉ rest.map (fun kv => kv.2.path) :=
        (List.nodup_cons.mp (by simpa using hnd)).1
      by_cases hc : target < size
      · have hex0 : fsExists fs e.path = true := hex _ (by simp)
        have hstep : evictLoop target ((k, e) :: rest) fs size =
            evictLoop target rest (fsRemove fs e.path) (size - e.size_bytes) := by
          simp [evictLoop, hc, hex0]
        have hex' : ∀ p ∈ rest.map (fun kv => kv.2.path),
            fsExists (fsRemove fs e.path) p = true := by
          intro p hp
          rw [fsExists_fsRemove_ne fs e.path p (fun hpe => hnotin (hpe ▸ hp))]
          exact hex p (by simp [hp])
        obtain ⟨n, h1, h2, h3, h4, h5⟩ :=
          ih (fsRemove fs e.path) (size - e.size_bytes) hnd' hex'
        refine ⟨n + 1, ?_, ?_, ?_, ?_, ?_⟩
        · rw [hstep, h1, List.drop_succ_cons]
        · rw [hstep, h2]
          simp only [List.take_succ_cons, entriesSize, List.map_cons, List.sum_cons]
          omega
        · intro p hp
          have hpe : p ≠ e.path := by
            intro hh
            apply hp
            simp only [List.take_succ_cons, List.map_cons, List.mem_cons]
            exact Or.inl hh
          have hpt : p ∉ (rest.take n).map (fun kv => kv.2.path) := by
            intro hmem
            apply hp
            simp only [List.take_succ_cons, List.map_cons, List.mem_cons]
            exact Or.inr hmem
          rw [hstep, h3 p hpt, fsExists_fsRemove_ne fs e.path p hpe]
        · intro p hp
          have hp0 : p = e.path ∨ p ∈ (rest.take n).map (fun kv => kv.2.path) := by
            simpa only [List.take_succ_cons, List.map_cons, List.mem_cons] using hp
          rcases hp0 with rfl | hp'
          · have hnt : e.path ∉ (rest.take n).map (fun kv => kv.2.path) := by
              intro hmem
              rw [List.map_take] at hmem
              exact hnotin (List.mem_of_mem_take hmem)
            rw [hstep, h3 e.path hnt, fsExists_fsRemove_self]
          · rw [hstep]
            exact h4 p hp'
        · intro hne
          rw [hstep] at hne ⊢
          exact h5 hne
      · have hstep : evictLoop target ((k, e) :: rest) fs size =
            ((k, e) :: rest, fs, size) := by
          simp [evictLoop, hc]
        refine ⟨0, by rw [hstep]; rfl, by rw [hstep]; simp [entriesSize],
          fun p _ => by rw [hstep], fun p hp => by simp at hp,
          fun _ => by rw [hstep]; exact not_lt.mp hc⟩

/-- The part of the render path after a cache miss always succeeds when
the page is in range, and the returned file exists afterwards — eviction
(or failure to free enough space) never blocks the write. -/
theorem renderMiss_write_proceeds (env : Env) (s : EMState) (info : PdfInfo)
    (block_id : String) (page dpi : Int) (m : ℚ) (hp : page < info.pages) :
    ∃ p, (renderMiss env s info block_id page dpi m).1 = Except.ok p ∧
      fsExists (renderMiss env s info block_id page dpi m).2.fs p = true := by
  rcases hs : fsStat s.fs ("renders/" ++ get_versioned_cache_key env block_id page dpi m ++ ".png")
    with _ | fi
  · have hle : ¬ info.pages ≤ page := not_le.mpr hp
    refine ⟨"renders/" ++ get_versioned_cache_key env block_id page dpi m ++ ".png", ?_, ?_⟩
    · simp [renderMiss, hs, hle]
    · simp [renderMiss, hs, hle, fsExists_fsWrite_self]
  · refine ⟨"renders/" ++ get_versioned_cache_key env block_id page dpi m ++ ".png", ?_, ?_⟩
    · simp [renderMiss, hs]
    · simp only [renderMiss, hs]
      exact fsExists_of_fsStat _ _ _ hs

/-- The function `render_pdf_page_to_png` always returns a path to an existing file
when the source PDF exists and the page is in range — whatever the budget
and cache state (the "write proceeds" half of the eviction contract). -/
theorem render_write_proceeds (env : Env) (s : EMState) (pdf_path block_id : String)
    (page dpi0 : Int) (info : PdfInfo)
    (he : env.pdfs pdf_path = some info) (hp : page < info.pages) :
    ∃ p, (render_pdf_page_to_png env s pdf_path block_id page dpi0).1 = Except.ok p ∧
      fsExists (render_pdf_page_to_png env s pdf_path block_id page dpi0).2.fs p = true := by
  rcases hl : odLookup s.render_cache (block_id, page, max 72 (min 600 dpi0), info.mtime)
    with _ | entry
  · simp only [render_pdf_page_to_png, he, hl]
    exact renderMiss_write_proceeds env s info block_id page (max 72 (min 600 dpi0))
      info.mtime hp
  · by_cases hex : fsExists s.fs entry.path
    · exact ⟨entry.path, by simp [render_pdf_page_to_png, he, hl, hex],
        by simp [render_pdf_page_to_png, he, hl, hex]⟩
    · simp only [render_pdf_page_to_png, he, hl, hex, Bool.false_eq_true, if_false]
      exact renderMiss_write_proceeds env s info block_id page (max 72 (min 600 dpi0))
        info.mtime hp

/-- C9: when a reservation would exceed the budget, `_evict_lru_files`
pops least-recently-used entries from the crop mapping first — deleting
the file, removing the entry, decrementing the total for each — until the
total is back at or under `budget − needed_bytes`; the render mapping is
touched only once the crop mapping is exhausted; eviction stops with the
total under target unless both mappings ran out; and eviction never fails
the caller's write — a render still succeeds and its file is written even
when nothing (or not enough) could be evicted. -/
theorem c9_eviction_policy (s : EMState) (needed_bytes : Int)
    (hnd : ((s.crop_cache.map fun kv => kv.2.path) ++
      (s.render_cache.map fun kv => kv.2.path)).Nodup)
    (hex : ∀ p ∈ (s.crop_cache.map fun kv => kv.2.path) ++
      (s.render_cache.map fun kv => kv.2.path), fsExists s.fs p = true) :
    (∃ n m, (evict_lru_files s needed_bytes).crop_cache = s.crop_cache.drop n ∧
      (evict_lru_files s needed_bytes).render_cache = s.render_cache.drop m ∧
      (evict_lru_files s needed_bytes).current_cache_size =
        s.current_cache_size - entriesSize (s.crop_cache.take n) -
          entriesSize (s.render_cache.take m) ∧
      (∀ p ∈ (s.crop_cache.take n).map (fun kv => kv.2.path) ++
          (s.render_cache.take m).map (fun kv => kv.2.path),
        fsExists (evict_lru_files s needed_bytes).fs p = false) ∧
      (∀ p ∈ (s.crop_cache.drop n).map (fun kv => kv.2.path) ++
          (s.render_cache.drop m).map (fun kv => kv.2.path),
        fsExists (evict_lru_files s needed_bytes).fs p = true)) ∧
    ((evict_lru_files s needed_bytes).crop_cache ≠ [] →
      (evict_lru_files s needed_bytes).render_cache = s.render_cache) ∧
    ((evict_lru_files s needed_bytes).current_cache_size ≤
        s.max_cache_size_bytes - needed_bytes ∨
      ((evict_lru_files s needed_bytes).crop_cache = [] ∧
        (evict_lru_files s needed_bytes).render_cache = [])) ∧
    (∀ (env : Env) (pdf_path block_id : String) (page dpi : Int) (info : PdfInfo),
      env.pdfs pdf_path = some info → page < info.pages →
      ∃ p, (render_pdf_page_to_png env s pdf_path block_id page dpi).1 = Except.ok p ∧
        fsExists (render_pdf_page_to_png env s pdf_path block_id page dpi).2.fs p = true) := by
  obtain ⟨hndc, hndr, hdisj⟩ := List.nodup_append.mp hnd
  have hexc : ∀ p ∈ s.crop_cache.map (fun kv => kv.2.path), fsExists s.fs p = true :=
    fun p hp => hex p (List.mem_append.mpr (Or.inl hp))
  obtain ⟨n, hc1, hc2, hc3, hc4, hc5⟩ :=
    evictLoop_spec (s.max_cache_size_bytes - needed_bytes) s.crop_cache s.fs
      s.current_cache_size hndc hexc
  have hexr : ∀ p ∈ s.render_cache.map (fun kv => kv.2.path),
      fsExists (evictLoop (s.max_cache_size_bytes - needed_bytes) s.crop_cache s.fs
        s.current_cache_size).2.1 p = true := by
    intro p hp
    have hnt : p ∉ (s.crop_cache.take n).map (fun kv => kv.2.path) := by
      intro h
      rw [List.map_take] at h
      exact hdisj (List.mem_of_mem_take h) hp
    rw [hc3 p hnt]
    exact hex p (List.mem_append.mpr (Or.inr hp))
  obtain ⟨m, hr1, hr2, hr3, hr4, hr5⟩ :=
    evictLoop_spec (s.max_cache_size_bytes - needed_bytes) s.render_cache
      (evictLoop (s.max_cache_size_bytes - needed_bytes) s.crop_cache s.fs
        s.current_cache_size).2.1
      (evictLoop (s.max_cache_size_bytes - needed_bytes) s.crop_cache s.fs
        s.current_cache_size).2.2 hndr hexr
  have hEc : (evict_lru_files s needed_bytes).crop_cache =
      (evictLoop (s.max_cache_size_bytes - needed_bytes) s.crop_cache s.fs
        s.current_cache_size).1 := rfl
  have hEr : (evict_lru_files s needed_bytes).render_cache =
      (evictLoop (s.max_cache_size_bytes - needed_bytes) s.render_cache
        (evictLoop (s.max_cache_size_bytes - needed_bytes) s.crop_cache s.fs
          s.current_cache_size).2.1
        (evictLoop (s.max_cache_size_bytes - needed_bytes) s.crop_cache s.fs
          s.current_cache_size).2.2).1 := rfl
  have hEf : (evict_lru_files s needed_bytes).fs =
      (evictLoop (s.max_cache_size_bytes - needed_bytes) s.render_cache
        (evictLoop (s.max_cache_size_bytes - needed_bytes) s.crop_cache s.fs
          s.current_cache_size).2.1
        (evictLoop (s.max_cache_size_bytes - needed_bytes) s.crop_cache s.fs
          s.current_cache_size).2.2).2.1 := rfl
  have hEs : (evict_lru_files s needed_bytes).current_cache_size =
      (evictLoop (s.max_cache_size_bytes - needed_bytes) s.render_cache
        (evictLoop (s.max_cache_size_bytes - needed_bytes) s.crop_cache s.fs
          s.current_cache_size).2.1
        (evictLoop (s.max_cache_size_bytes - needed_bytes) s.crop_cache s.fs
          s.current_cache_size).2.2).2.2 := rfl
  refine ⟨⟨n, m, ?_, ?_, ?_, ?_, ?_⟩, ?_, ?_, ?_⟩
  · rw [hEc, hc1]
  · rw [hEr, hr1]
  · rw [hEs, hr2, hc2]
  · intro p hp
    rcases List.mem_append.mp hp with hp | hp
    · have hnt : p ∉ (s.render_cache.take m).map (fun kv => kv.2.path) := by
        intro h
        rw [List.map_take] at h
        refine hdisj ?_ (List.mem_of_mem_take h)
        rw [List.map_take] at hp
        exact List.mem_of_mem_take hp
      rw [hEf, hr3 p hnt]
      exact hc4 p hp
    · rw [hEf]
      exact hr4 p hp
  · intro p hp
    have hct : ∀ q, q ∈ (s.crop_cache.map fun kv => kv.2.path) →
        q ∉ (s.render_cache.take m).map (fun kv => kv.2.path) := by
      intro q hq h
      rw [List.map_take] at h
      exact hdisj hq (List.mem_of_mem_take h)
    rcases List.mem_append.mp hp with hp | hp
    · have hmem : p ∈ s.crop_cache.map fun kv => kv.2.path := by
        rw [List.map_drop] at hp
        exact List.mem_of_mem_drop hp
      have hnt : p ∉ (s.crop_cache.take n).map (fun kv => kv.2.path) := by
        intro h
        have hsplit : ((s.crop_cache.take n).map (fun kv => kv.2.path) ++
            (s.crop_cache.drop n).map (fun kv => kv.2.path)).Nodup := by
          rw [← List.map_append, List.take_append_drop]
          exact hndc
        exact (List.nodup_append.mp hsplit).2.2 h hp
      rw [hEf, hr3 p (hct p hmem), hc3 p hnt]
      exact hex p (List.mem_append.mpr (Or.inl hmem))
    · have hmem : p ∈ s.render_cache.map fun kv => kv.2.path := by
        rw [List.map_drop] at hp
        exact List.mem_of_mem_drop hp
      have hnt : p ∉ (s.render_cache.take m).map (fun kv => kv.2.path) := by
        intro h
        have hsplit : ((s.render_cache.take m).map (fun kv => kv.2.path) ++
            (s.render_cache.drop m).map (fun kv => kv.2.path)).Nodup := by
          rw [← List.map_append, List.take_append_drop]
          exact hndr
        exact (List.nodup_append.mp hsplit).2.2 h hp
      have hnc : p ∉ (s.crop_cache.take n).map (fun kv => kv.2.path) := by
        intro h
        rw [List.map_take] at h
        exact hdisj (List.mem_of_mem_take h) hmem
      rw [hEf, hr3 p hnt, hc3 p hnc]
      exact hex p (List.mem_append.mpr (Or.inr hmem))
  · intro hne
    rw [hEc] at hne
    have hle := hc5 hne
    rw [hEr, evictLoop_of_le _ _ _ _ hle]
  · by_cases hcne : (evictLoop (s.max_cache_size_bytes - needed_bytes) s.crop_cache s.fs
        s.current_cache_size).1 = []
    · by_cases hrne : (evict_lru_files s needed_bytes).render_cache = []
      · exact Or.inr ⟨by rw [hEc, hcne], hrne⟩
      · refine Or.inl ?_
        rw [hEs]
        exact hr5 (by rw [← hEr]; exact hrne)
    · have hle := hc5 hcne
      refine Or.inl ?_
      rw [hEs, evictLoop_of_le _ _ _ _ hle]
      exact hle
  · intro env pdf_path block_id page dpi info he hp
    exact render_write_proceeds env s pdf_path block_id page dpi info he hp

/-- Crop-cache fixture entries for the eviction witness. -/
def entC1 : CacheEntry := ⟨"crops/c1.png", 40, 0, 0, 0⟩

def entC2 : CacheEntry := ⟨"crops/c2.png", 50, 0, 0, 0⟩

def entR1 : CacheEntry := ⟨"renders/r1.png", 30, 0, 1, 0⟩

/-- A manager over budget: 120 bytes tracked against a 100-byte budget,
with two crops (LRU order `c1`, then `c2`) and one render. -/
def s9 : EMState :=
  { render_cache := [(("r", 0, 150, 1), entR1)],
    crop_cache := [("c1", entC1), ("c2", entC2)],
    current_cache_size := 120, max_cache_size_bytes := 100,
    fs := [("crops/c1.png", ⟨40, 0, 0⟩), ("crops/c2.png", ⟨50, 0, 0⟩),
           ("renders/r1.png", ⟨30, 0, 0⟩)] }

/-- C9 witness: reserving 60 bytes on `s9` (target 40) evicts both crops
in LRU order and leaves the render mapping untouched, through
`c9_eviction_policy` at that concrete state. -/
theorem c9_witness :
    ∃ n m, (evict_lru_files s9 60).crop_cache = s9.crop_cache.drop n ∧
      (evict_lru_files s9 60).render_cache = s9.render_cache.drop m ∧
      (evict_lru_files s9 60).current_cache_size =
        s9.current_cache_size - entriesSize (s9.crop_cache.take n) -
          entriesSize (s9.render_cache.take m) ∧
      (∀ p ∈ (s9.crop_cache.take n).map (fun kv => kv.2.path) ++
          (s9.render_cache.take m).map (fun kv => kv.2.path),
        fsExists (evict_lru_files s9 60).fs p = false) ∧
      (∀ p ∈ (s9.crop_cache.drop n).map (fun kv => kv.2.path) ++
          (s9.render_cache.drop m).map (fun kv => kv.2.path),
        fsExists (evict_lru_files s9 60).fs p = true) :=
  (c9_eviction_policy s9 60 (by decide) (by decide)).1

/-! ### C7 -/

theorem fsStat_fsRemove_ne (fs : FS) (p q : String) (h : q ≠ p) :
    fsStat (fsRemove fs p) q = fsStat fs q := by
  induction fs with
  | nil => rfl
  | cons kv rest ih =>
      simp only [fsRemove]
      by_cases h1 : kv.1 = p
      · rw [if_pos h1, ih]
        have h2 : kv.1 ≠ q := by
          rw [h1]
          exact fun hh => h hh.symm
        simp [fsStat, h2]
      · rw [if_neg h1]
        simp only [fsStat]
        by_cases h2 : kv.1 = q
        · rw [if_pos h2, if_pos h2]
        · rw [if_neg h2, if_neg h2, ih]

theorem fsStat_fsWrite_ne (fs : FS) (p q : String) (size : Int) (now : ℚ)
    (h : q ≠ p) : fsStat (fsWrite fs p size now) q = fsStat fs q := by
  have hpq : p ≠ q := fun hh => h hh.symm
  simp only [fsWrite, fsStat, hpq, if_neg hpq]
  exact fsStat_fsRemove_ne fs p q h

theorem fsExists_fsWrite_ne (fs : FS) (p q : String) (size : Int) (now : ℚ)
    (h : q ≠ p) : fsExists (fsWrite fs p size now) q = fsExists fs q := by
  have hpq : p ≠ q := fun hh => h hh.symm
  simp only [fsWrite, fsExists, hpq, if_neg hpq]
  exact fsExists_fsRemove_ne fs p q h

/-- Two versioned on-disk filenames for the same (block, page, dpi) are
distinct whenever the truncated mtime hashes are distinct (the hash is
the only varying filename component). -/
theorem versioned_paths_ne (env1 env2 : Env) (block_id : String) (page dpi : Int)
    (m1 m2 : ℚ) (hh : env1.mtimeHash m1 ≠ env2.mtimeHash m2) :
    "renders/" ++ get_versioned_cache_key env1 block_id page dpi m1 ++ ".png" ≠
      "renders/" ++ get_versioned_cache_key env2 block_id page dpi m2 ++ ".png" := by
  intro he
  apply hh
  apply String.ext
  have hd := congrArg String.data he
  simp only [get_versioned_cache_key, String.data_append, List.append_assoc] at hd
  have h1 := List.append_cancel_left hd
  have h2 := List.append_cancel_left h1
  have h3 := List.append_cancel_left h2
  have h4 := List.append_cancel_left h3
  have h5 := List.append_cancel_left h4
  have h6 := List.append_cancel_left h5
  have h7 := List.append_cancel_left h6
  exact List.append_cancel_right h7

/-- A fresh render (cache miss, no file on disk, page in range) that fits
the budget writes the versioned file, registers the entry under the
versioned key, and adds the actual PNG size to the total — evicting
nothing. -/
theorem render_fresh_noevict (env : Env) (s : EMState) (pdf_path block_id : String)
    (page dpi0 : Int) (info : PdfInfo)
    (he : env.pdfs pdf_path = some info)
    (hl : odLookup s.render_cache (block_id, page, max 72 (min 600 dpi0), info.mtime) = none)
    (hd : fsStat s.fs ("renders/" ++ get_versioned_cache_key env block_id page
        (max 72 (min 600 dpi0)) info.mtime ++ ".png") = none)
    (hp : page < info.pages)
    (hb : ¬ s.max_cache_size_bytes < s.current_cache_size +
        info.pixW page (max 72 (min 600 dpi0)) * info.pixH page (max 72 (min 600 dpi0)) * 3) :
    render_pdf_page_to_png env s pdf_path block_id page dpi0 =
      (Except.ok ("renders/" ++ get_versioned_cache_key env block_id page
          (max 72 (min 600 dpi0)) info.mtime ++ ".png"),
       { render_cache := odSet s.render_cache (block_id, page, max 72 (min 600 dpi0), info.mtime)
           ⟨"renders/" ++ get_versioned_cache_key env block_id page
              (max 72 (min 600 dpi0)) info.mtime ++ ".png",
            info.pngSize page (max 72 (min 600 dpi0)), env.now, info.mtime, env.now⟩,
         crop_cache := s.crop_cache,
         current_cache_size := s.current_cache_size + info.pngSize page (max 72 (min 600 dpi0)),
         max_cache_size_bytes := s.max_cache_size_bytes,
         fs := fsWrite s.fs ("renders/" ++ get_versioned_cache_key env block_id page
             (max 72 (min 600 dpi0)) info.mtime ++ ".png")
           (info.pngSize page (max 72 (min 600 dpi0))) env.now }) := by
  have hle : ¬ info.pages ≤ page := not_le.mpr hp
  simp only [render_pdf_page_to_png, he, hl, renderMiss, hd, hle, if_false,
    if_neg hle, hb, if_neg hb]

/-- C7 (amended): rendering the same (block, page, dpi) under two distinct
source mtimes creates two distinct in-memory cache entries — the key holds
the raw mtime — and, whenever the truncated mtime hashes differ, two
distinct file paths; the versioning itself never deletes the old file, and
when the second render fits the byte budget (no LRU eviction is
triggered) both files
coexist on disk until explicit cleanup. -/
theorem c7_two_versions (env1 env2 : Env) (s : EMState) (pdf_path block_id : String)
    (page dpi : Int) (info1 info2 : PdfInfo)
    (he1 : env1.pdfs pdf_path = some info1)
    (he2 : env2.pdfs pdf_path = some info2)
    (hm : info1.mtime ≠ info2.mtime)
    (hh : env1.mtimeHash info1.mtime ≠ env2.mtimeHash info2.mtime)
    (hl1 : odLookup s.render_cache (block_id, page, max 72 (min 600 dpi), info1.mtime) = none)
    (hd1 : fsStat s.fs ("renders/" ++ get_versioned_cache_key env1 block_id page
        (max 72 (min 600 dpi)) info1.mtime ++ ".png") = none)
    (hp1 : page < info1.pages)
    (hl2 : odLookup s.render_cache (block_id, page, max 72 (min 600 dpi), info2.mtime) = none)
    (hd2 : fsStat s.fs ("renders/" ++ get_versioned_cache_key env2 block_id page
        (max 72 (min 600 dpi)) info2.mtime ++ ".png") = none)
    (hp2 : page < info2.pages)
    (hb1 : ¬ s.max_cache_size_bytes < s.current_cache_size +
        info1.pixW page (max 72 (min 600 dpi)) * info1.pixH page (max 72 (min 600 dpi)) * 3)
    (hb2 : ¬ s.max_cache_size_bytes <
        s.current_cache_size + info1.pngSize page (max 72 (min 600 dpi)) +
          info2.pixW page (max 72 (min 600 dpi)) * info2.pixH page (max 72 (min 600 dpi)) * 3) :
    (render_pdf_page_to_png env1 s pdf_path block_id page dpi).1 =
      Except.ok ("renders/" ++ get_versioned_cache_key env1 block_id page
        (max 72 (min 600 dpi)) info1.mtime ++ ".png") ∧
    (render_pdf_page_to_png env2 (render_pdf_page_to_png env1 s pdf_path block_id page dpi).2
        pdf_path block_id page dpi).1 =
      Except.ok ("renders/" ++ get_versioned_cache_key env2 block_id page
        (max 72 (min 600 dpi)) info2.mtime ++ ".png") ∧
    ("renders/" ++ get_versioned_cache_key env1 block_id page
        (max 72 (min 600 dpi)) info1.mtime ++ ".png") ≠
      ("renders/" ++ get_versioned_cache_key env2 block_id page
        (max 72 (min 600 dpi)) info2.mtime ++ ".png") ∧
    ((block_id, page, max 72 (min 600 dpi), info1.mtime) : RenderKey) ≠
      (block_id, page, max 72 (min 600 dpi), info2.mtime) ∧
    (∃ e1, odLookup (render_pdf_page_to_png env2
          (render_pdf_page_to_png env1 s pdf_path block_id page dpi).2
          pdf_path block_id page dpi).2.render_cache
        (block_id, page, max 72 (min 600 dpi), info1.mtime) = some e1 ∧
      e1.path = "renders/" ++ get_versioned_cache_key env1 block_id page
        (max 72 (min 600 dpi)) info1.mtime ++ ".png") ∧
    (∃ e2, odLookup (render_pdf_page_to_png env2
          (render_pdf_page_to_png env1 s pdf_path block_id page dpi).2
          pdf_path block_id page dpi).2.render_cache
        (block_id, page, max 72 (min 600 dpi), info2.mtime) = some e2 ∧
      e2.path = "renders/" ++ get_versioned_cache_key env2 block_id page
        (max 72 (min 600 dpi)) info2.mtime ++ ".png") ∧
    fsExists (render_pdf_page_to_png env2
        (render_pdf_page_to_png env1 s pdf_path block_id page dpi).2
        pdf_path block_id page dpi).2.fs
      ("renders/" ++ get_versioned_cache_key env1 block_id page
        (max 72 (min 600 dpi)) info1.mtime ++ ".png") = true ∧
    fsExists (render_pdf_page_to_png env2
        (render_pdf_page_to_png env1 s pdf_path block_id page dpi).2
        pdf_path block_id page dpi).2.fs
      ("renders/" ++ get_versioned_cache_key env2 block_id page
        (max 72 (min 600 dpi)) info2.mtime ++ ".png") = true := by
  have hpne : ("renders/" ++ get_versioned_cache_key env1 block_id page
      (max 72 (min 600 dpi)) info1.mtime ++ ".png") ≠
      ("renders/" ++ get_versioned_cache_key env2 block_id page
        (max 72 (min 600 dpi)) info2.mtime ++ ".png") :=
    versioned_paths_ne env1 env2 block_id page (max 72 (min 600 dpi))
      info1.mtime info2.mtime hh
  have hkne : ((block_id, page, max 72 (min 600 dpi), info1.mtime) : RenderKey) ≠
      (block_id, page, max 72 (min 600 dpi), info2.mtime) :=
    fun hk => hm (congrArg (fun t : RenderKey => t.2.2.2) hk)
  have hr1 := render_fresh_noevict env1 s pdf_path block_id page dpi info1 he1 hl1 hd1 hp1 hb1
  have hs1 : (render_pdf_page_to_png env1 s pdf_path block_id page dpi).2 =
      { render_cache := odSet s.render_cache (block_id, page, max 72 (min 600 dpi), info1.mtime)
          ⟨"renders/" ++ get_versioned_cache_key env1 block_id page
             (max 72 (min 600 dpi)) info1.mtime ++ ".png",
           info1.pngSize page (max 72 (min 600 dpi)), env1.now, info1.mtime, env1.now⟩,
        crop_cache := s.crop_cache,
        current_cache_size := s.current_cache_size + info1.pngSize page (max 72 (min 600 dpi)),
        max_cache_size_bytes := s.max_cache_size_bytes,
        fs := fsWrite s.fs ("renders/" ++ get_versioned_cache_key env1 block_id page
            (max 72 (min 600 dpi)) info1.mtime ++ ".png")
          (info1.pngSize page (max 72 (min 600 dpi))) env1.now } := by
    rw [hr1]
  have hr2 := render_fresh_noevict env2
    ((render_pdf_page_to_png env1 s pdf_path block_id page dpi).2)
    pdf_path block_id page dpi info2 he2
    (by
      rw [hs1]
      dsimp only
      rw [odLookup_odSet_ne _ _ _ _ hkne]
      exact hl2)
    (by
      rw [hs1]
      dsimp only
      rw [fsStat_fsWrite_ne _ _ _ _ _ (fun hpq => hpne hpq.symm)]
      exact hd2)
    hp2
    (by
      rw [hs1]
      dsimp only
      exact hb2)
  refine ⟨by rw [hr1], by rw [hr2, hs1], hpne, hkne, ?_, ?_, ?_, ?_⟩
  · refine ⟨⟨"renders/" ++ get_versioned_cache_key env1 block_id page
        (max 72 (min 600 dpi)) info1.mtime ++ ".png",
      info1.pngSize page (max 72 (min 600 dpi)), env1.now, info1.mtime, env1.now⟩, ?_, rfl⟩
    rw [hr2]
    dsimp only
    rw [odLookup_odSet_ne _ _ _ _ (fun hk => hkne hk.symm), hs1]
    dsimp only
    exact odLookup_odSet_self _ _ _
  · refine ⟨⟨"renders/" ++ get_versioned_cache_key env2 block_id page
        (max 72 (min 600 dpi)) info2.mtime ++ ".png",
      info2.pngSize page (max 72 (min 600 dpi)), env2.now, info2.mtime, env2.now⟩, ?_, rfl⟩
    rw [hr2]
    dsimp only
    exact odLookup_odSet_self _ _ _
  · rw [hr2]
    dsimp only
    rw [hs1]
    dsimp only
    rw [fsExists_fsWrite_ne _ _ _ _ _ hpne]
    exact fsExists_fsWrite_self _ _ _ _
  · rw [hr2]
    dsimp only
    exact fsExists_fsWrite_self _ _ _ _

/-- C7 witness: rendering `b` page 0 at 150 dpi under mtime 1 (`envW`) and
then under mtime 2 (`env2`) with a roomy budget, through
`c7_two_versions`: distinct keys, distinct paths, both entries live and
both files on disk. -/
theorem c7_witness :
    (render_pdf_page_to_png envW s0 "a.pdf" "b" 0 150).1 =
      Except.ok "renders/b_p0_d150_v1.png" ∧
    (render_pdf_page_to_png env2 (render_pdf_page_to_png envW s0 "a.pdf" "b" 0 150).2
        "a.pdf" "b" 0 150).1 = Except.ok "renders/b_p0_d150_v2.png" ∧
    ("renders/b_p0_d150_v1.png" : String) ≠ "renders/b_p0_d150_v2.png" ∧
    (("b", 0, 150, (1 : ℚ)) : RenderKey) ≠ ("b", 0, 150, (2 : ℚ)) ∧
    (∃ e1, odLookup (render_pdf_page_to_png env2
          (render_pdf_page_to_png envW s0 "a.pdf" "b" 0 150).2
          "a.pdf" "b" 0 150).2.render_cache ("b", 0, 150, (1 : ℚ)) = some e1 ∧
      e1.path = "renders/b_p0_d150_v1.png") ∧
    (∃ e2, odLookup (render_pdf_page_to_png env2
          (render_pdf_page_to_png envW s0 "a.pdf" "b" 0 150).2
          "a.pdf" "b" 0 150).2.render_cache ("b", 0, 150, (2 : ℚ)) = some e2 ∧
      e2.path = "renders/b_p0_d150_v2.png") ∧
    fsExists (render_pdf_page_to_png env2
        (render_pdf_page_to_png envW s0 "a.pdf" "b" 0 150).2
        "a.pdf" "b" 0 150).2.fs "renders/b_p0_d150_v1.png" = true ∧
    fsExists (render_pdf_page_to_png env2
        (render_pdf_page_to_png envW s0 "a.pdf" "b" 0 150).2
        "a.pdf" "b" 0 150).2.fs "renders/b_p0_d150_v2.png" = true :=
  c7_two_versions envW env2 s0 "a.pdf" "b" 0 150 pdfInfoW ({ pdfInfoW with mtime := 2 })
    rfl rfl (by decide) (by decide) (by decide) (by decide) (by decide)
    (by decide) (by decide) (by decide) (by decide) (by decide)

end QAEvidence
